import Mathlib

/-!
# Verification of the STS Architectural Audit engine (`sts_checker.py`)

Shallow embedding of the audit engine: configuration, per-file metric
extraction and verdict (`audit_file`), churn normalization (`compute_ccr`),
project aggregation (`aggregate`), file collection/ordering
(`collect_files`), structured-report construction (`build_json`) and the
CLI exit-status logic (`main`).

Modelling conventions:
* Python `float` values are embedded as exact rationals (`ℚ`); the engine
  only ever divides small integer counts, compares against thresholds and
  takes max/mean, so the real-number semantics is the intended one.
* The radon library calls (`cc_visit`, `mi_visit`, `h_visit`) and the
  `git log` subprocess are external to the repository; their *results*
  (the list of per-block cyclomatic complexities, the MI/Halstead scalars,
  the churn line count or its failure) are inputs of the embedded
  `audit_file`, exactly as the source consumes them.
* `path.read_text` is the only fallible step of `audit_file`; an
  unreadable or undecodable file is embedded as the absence of a
  `FileData` value, and the raised exception as `Except.error`.
* Strings such as the verdicts `"H-TIER (FAILED)"` / `"Z-TIER (PASSED)"`
  and the TL flags `"HIGH"` / `"LOW"` are kept verbatim.
-/

/-- A filesystem path, as its sequence of parts (`pathlib` `parts`).
`pathlib` orders paths by this tuple of parts, componentwise by string
comparison; `str(path)` joins the parts with `/`. -/
structure FsPath where
  parts : List String
deriving DecidableEq

/-- `str(path)`: the parts joined by `/`. -/
def FsPath.str (p : FsPath) : String :=
  String.intercalate "/" p.parts

/-- `path.name`: the final component (empty for an empty path). -/
def FsPath.name (p : FsPath) : String :=
  p.parts.getLast?.getD ""

/-- `listPrefixOf p l` holds when `p` is an initial segment of `l`. -/
def listPrefixOf : List Char → List Char → Bool
  | [], _ => true
  | _ :: _, [] => false
  | a :: as, b :: bs => a == b && listPrefixOf as bs

/-- Python's `pat in line`: case-sensitive contiguous-substring test. -/
def strContains (line pat : String) : Bool :=
  (List.range (line.toList.length + 1)).any fun i =>
    listPrefixOf pat.toList (line.toList.drop i)

/-- The engine's immutable configuration (`Config` dataclass). -/
structure Config where
  illegal_patterns : List String
  cc_threshold : Nat
  adf_threshold : ℚ
  ccr_threshold : ℚ
  project_cc_threshold : Nat
  skip_dirs : List String
deriving DecidableEq

/-- `DEFAULT_CONFIG` from the source (thresholds 20 / 0.05 / 0.3 / 10). -/
def DEFAULT_CONFIG : Config :=
  { illegal_patterns := ["import tkinter", "from bookstore_ui", "print("]
    cc_threshold := 20
    adf_threshold := 5 / 100
    ccr_threshold := 3 / 10
    project_cc_threshold := 10
    skip_dirs := ["__pycache__", ".venv", "venv", ".git"] }

/-- Everything `audit_file` obtains about one readable file:
the decoded content as its `splitlines()` list, the cyclomatic
complexities of the blocks found by radon's `cc_visit` (one entry per
function/method/class; empty when the structural scan finds no block),
the radon MI / Halstead scalars, and the `git log` churn line count
(`none` when the subprocess times out or `git` is missing). -/
structure FileData where
  lines : List String
  blocks : List Nat
  mi_score : ℚ
  h_difficulty : ℚ
  h_effort : ℚ
  churn : Option Nat
deriving DecidableEq

/-- The per-file report (`FileReport` dataclass); `tl` is the string flag
`"HIGH"`/`"LOW"`, `verdict` one of the two verdict strings. -/
structure FileReport where
  path : FsPath
  max_cc : Nat
  mi_score : ℚ
  h_difficulty : ℚ
  h_effort : ℚ
  ccr : ℚ
  adf : ℚ
  tl : String
  tl_instances : List String
  verdict : String
deriving DecidableEq

/-- The failing verdict string. -/
def FAILED_VERDICT : String := "H-TIER (FAILED)"

/-- The passing verdict string. -/
def PASSED_VERDICT : String := "Z-TIER (PASSED)"

/-- `_compute_ccr`: `min(churn_count / 10.0, 1.0)`, and `0.0` when the
`git` query raised (`TimeoutExpired` / `FileNotFoundError`). -/
def compute_ccr (churn : Option Nat) : ℚ :=
  match churn with
  | none => 0
  | some churn_count => min ((churn_count : ℚ) / 10) 1

/-- `_detect_tl`: one `path:lineno` evidence string per line containing
`os.path`, in file order, line numbers starting at 1. -/
def detect_tl (path : FsPath) (lines : List String) : List String :=
  (lines.enum.filter fun e => strContains e.2 "os.path").map fun e =>
    path.str ++ ":" ++ toString (e.1 + 1)

/-- Python `max(iterable, default=d)`: fold of binary `max` over the
elements, `d` only for the empty list. -/
def maxD {α : Type} [Max α] (d : α) : List α → α
  | [] => d
  | a :: as => as.foldl max a

/-- `statistics.mean`, guarded to `0` on `[]` as the source guards it. -/
def listMean (l : List ℚ) : ℚ :=
  if l.isEmpty then 0 else l.sum / l.length

/-- `audit_file` on a readable file: max CC over radon's blocks
(`default=0`), churn via `_compute_ccr`, ADF as the fraction of lines
containing some illegal pattern, TL evidence via `_detect_tl`, and the
file verdict: FAIL iff CC, ADF or CCR strictly exceeds its ceiling. -/
def audit_file (path : FsPath) (f : FileData) (config : Config) : FileReport :=
  let total_lines := f.lines.length
  let max_cc := maxD 0 f.blocks
  let ccr := compute_ccr f.churn
  let adf : ℚ :=
    if total_lines = 0 then 0
    else
      (f.lines.countP fun line =>
        config.illegal_patterns.any fun p => strContains line p) / total_lines
  let tl_instances := detect_tl path f.lines
  let tl := if tl_instances.isEmpty then "LOW" else "HIGH"
  let verdict :=
    if max_cc > config.cc_threshold ∨ adf > config.adf_threshold ∨
        ccr > config.ccr_threshold then
      FAILED_VERDICT
    else PASSED_VERDICT
  { path := path
    max_cc := max_cc
    mi_score := f.mi_score
    h_difficulty := f.h_difficulty
    h_effort := f.h_effort
    ccr := ccr
    adf := adf
    tl := tl
    tl_instances := tl_instances
    verdict := verdict }

/-- A clean one-line file whose single function has CC 21: concrete
scenario data for the per-file verdict policy. -/
def fileCC21 : FileData :=
  { lines := ["def f(x):"], blocks := [21], mi_score := 100,
    h_difficulty := 0, h_effort := 0, churn := some 0 }

/-- A concrete path for scenario data. -/
def pA : FsPath := ⟨["proj", "a.py"]⟩

/-- The project-level report (`ProjectReport` dataclass). -/
structure ProjectReport where
  total_files : Nat
  max_cc : Nat
  mean_cc : ℚ
  max_adf : ℚ
  polluted_files : List FsPath
  mean_ccr : ℚ
  max_ccr : ℚ
  global_tl : String
  tl_instances : List String
  verdict : String
deriving DecidableEq

/-- `aggregate`: reduce the per-file reports to a project summary.
The project (Z-TIER) verdict PASSes iff max CC `<` the *project* CC
ceiling, max ADF `<` the per-file ADF ceiling, the global TL flag is
`"LOW"` and max CCR `≤` the churn ceiling. -/
def aggregate (reports : List FileReport) (config : Config) : ProjectReport :=
  let all_cc : List Nat := reports.map fun r => r.max_cc
  let all_ccr : List ℚ := reports.map fun r => r.ccr
  let polluted := (reports.filter fun r => decide (r.adf > 0)).map fun r => r.path
  let all_tl := (reports.map fun r => r.tl_instances).flatten
  let max_adf := maxD 0 (reports.map fun r => r.adf)
  let global_tl := if all_tl.isEmpty then "LOW" else "HIGH"
  let max_cc := maxD 0 all_cc
  let mean_cc := listMean (all_cc.map fun n => (n : ℚ))
  let mean_ccr := listMean all_ccr
  let max_ccr := maxD 0 all_ccr
  let verdict :=
    if max_cc < config.project_cc_threshold ∧ max_adf < config.adf_threshold ∧
        global_tl = "LOW" ∧ max_ccr ≤ config.ccr_threshold then
      PASSED_VERDICT
    else FAILED_VERDICT
  { total_files := reports.length
    max_cc := max_cc
    mean_cc := mean_cc
    max_adf := max_adf
    polluted_files := polluted
    mean_ccr := mean_ccr
    max_ccr := max_ccr
    global_tl := global_tl
    tl_instances := all_tl
    verdict := verdict }

/-- A seed is below the fold of `max` over a list starting from it. -/
theorem foldl_max_init_le {α : Type} [LinearOrder α] :
    ∀ (l : List α) (b : α), b ≤ l.foldl max b
  | [], b => le_refl b
  | c :: cs, b => le_trans (le_max_left b c) (foldl_max_init_le cs (max b c))

/-- Every member of a list is below the fold of `max` over it. -/
theorem le_foldl_max_of_mem {α : Type} [LinearOrder α] :
    ∀ (l : List α) (b a : α), a ∈ l → a ≤ l.foldl max b
  | c :: cs, b, a, h => by
    rcases List.mem_cons.mp h with h1 | h2
    · subst h1
      exact le_trans (le_max_right b a) (foldl_max_init_le cs (max b a))
    · exact le_foldl_max_of_mem cs (max b c) a h2

/-- Every member of a list is below its Python-style `max(·, default=d)`. -/
theorem le_maxD_of_mem {α : Type} [LinearOrder α] (d : α) {a : α} {l : List α}
    (h : a ∈ l) : a ≤ maxD d l := by
  cases l with
  | nil => cases h
  | cons b bs =>
    rcases List.mem_cons.mp h with h1 | h2
    · subst h1
      exact foldl_max_init_le bs a
    · exact le_foldl_max_of_mem bs b a h2

/-- The verdict field of `aggregate`, re-expressed through the other
fields of the report it returns (definitional). -/
theorem aggregate_verdict_eq (reports : List FileReport) (config : Config) :
    (aggregate reports config).verdict =
      (if (aggregate reports config).max_cc < config.project_cc_threshold ∧
          (aggregate reports config).max_adf < config.adf_threshold ∧
          (aggregate reports config).global_tl = "LOW" ∧
          (aggregate reports config).max_ccr ≤ config.ccr_threshold
        then PASSED_VERDICT else FAILED_VERDICT) := rfl

/-- The verdict field of `audit_file`, re-expressed through the other
fields of the report it returns (definitional). -/
theorem audit_file_verdict_eq (path : FsPath) (f : FileData) (config : Config) :
    (audit_file path f config).verdict =
      (if (audit_file path f config).max_cc > config.cc_threshold ∨
          (audit_file path f config).adf > config.adf_threshold ∨
          (audit_file path f config).ccr > config.ccr_threshold
        then FAILED_VERDICT else PASSED_VERDICT) := rfl

/-- C1. For every file and every configuration, the file verdict is FAIL
iff (max CC > per-file CC ceiling) or (ADF > per-file ADF ceiling) or
(churn rate > churn ceiling), each strict; otherwise PASS. In particular
a file with max CC = 21, ADF = 0, churn = 0 under the default per-file
CC ceiling of 20 gets verdict FAIL. -/
theorem file_verdict_policy :
    (∀ (path : FsPath) (f : FileData) (config : Config),
      ((audit_file path f config).verdict = FAILED_VERDICT ↔
        ((audit_file path f config).max_cc > config.cc_threshold ∨
          (audit_file path f config).adf > config.adf_threshold ∨
          (audit_file path f config).ccr > config.ccr_threshold)) ∧
      ((audit_file path f config).verdict = FAILED_VERDICT ∨
        (audit_file path f config).verdict = PASSED_VERDICT)) ∧
    (audit_file pA fileCC21 DEFAULT_CONFIG).max_cc = 21 ∧
    (audit_file pA fileCC21 DEFAULT_CONFIG).adf = 0 ∧
    (audit_file pA fileCC21 DEFAULT_CONFIG).ccr = 0 ∧
    (audit_file pA fileCC21 DEFAULT_CONFIG).verdict = FAILED_VERDICT := by
  refine ⟨fun path f config => ?_, by decide,
    by simp +decide [audit_file, fileCC21, DEFAULT_CONFIG],
    by simp [audit_file, fileCC21, compute_ccr], by decide⟩
  rw [audit_file_verdict_eq]
  constructor
  · split
    · next h => exact iff_of_true rfl h
    · next h => exact iff_of_false (by decide) h
  · split
    · exact Or.inl rfl
    · exact Or.inr rfl

/-- Scenario file with a single function of CC 5 and nothing else. -/
def fileCC5 : FileData :=
  { lines := ["def f(x):"], blocks := [5], mi_score := 100,
    h_difficulty := 0, h_effort := 0, churn := some 0 }

/-- Scenario file with a single function of CC 9 and nothing else. -/
def fileCC9 : FileData :=
  { lines := ["def g(x):"], blocks := [9], mi_score := 100,
    h_difficulty := 0, h_effort := 0, churn := some 0 }

/-- Scenario file with a single function of CC 11 and nothing else. -/
def fileCC11 : FileData :=
  { lines := ["def h(x):"], blocks := [11], mi_score := 100,
    h_difficulty := 0, h_effort := 0, churn := some 0 }

/-- Concrete paths for the three-file scenario directory. -/
def pB5 : FsPath := ⟨["proj", "b5.py"]⟩

/-- Second scenario path. -/
def pB9 : FsPath := ⟨["proj", "b9.py"]⟩

/-- Third scenario path. -/
def pB11 : FsPath := ⟨["proj", "b11.py"]⟩

/-- The three file reports of the scenario directory, audited under the
default configuration. -/
def demoReports : List FileReport :=
  [audit_file pB5 fileCC5 DEFAULT_CONFIG,
   audit_file pB9 fileCC9 DEFAULT_CONFIG,
   audit_file pB11 fileCC11 DEFAULT_CONFIG]

/-- C2. For every list of file reports and every configuration, the
project verdict is PASS iff (max CC across files) < project CC ceiling
(strict, against the project ceiling), (max ADF) < per-file ADF ceiling
(strict), the global TL flag is clear (`"LOW"`), and (max churn) ≤ churn
ceiling (non-strict). In particular a directory whose files have max CC
5, 9 and 11 under the default project ceiling 10 gets project verdict
FAIL although each file passes its own per-file ceiling of 20. -/
theorem project_verdict_policy :
    (∀ (reports : List FileReport) (config : Config),
      ((aggregate reports config).verdict = PASSED_VERDICT ↔
        ((aggregate reports config).max_cc < config.project_cc_threshold ∧
          (aggregate reports config).max_adf < config.adf_threshold ∧
          (aggregate reports config).global_tl = "LOW" ∧
          (aggregate reports config).max_ccr ≤ config.ccr_threshold)) ∧
      ((aggregate reports config).verdict = PASSED_VERDICT ∨
        (aggregate reports config).verdict = FAILED_VERDICT)) ∧
    (audit_file pB5 fileCC5 DEFAULT_CONFIG).verdict = PASSED_VERDICT ∧
    (audit_file pB9 fileCC9 DEFAULT_CONFIG).verdict = PASSED_VERDICT ∧
    (audit_file pB11 fileCC11 DEFAULT_CONFIG).verdict = PASSED_VERDICT ∧
    (aggregate demoReports DEFAULT_CONFIG).max_cc = 11 ∧
    (aggregate demoReports DEFAULT_CONFIG).verdict = FAILED_VERDICT := by
  refine ⟨fun reports config => ?_, ?_, ?_, ?_, by decide, ?_⟩
  · rw [aggregate_verdict_eq]
    constructor
    · split
      · next h => exact iff_of_true rfl h
      · next h => exact iff_of_false (by decide) h
    · split
      · exact Or.inl rfl
      · exact Or.inr rfl
  · rw [audit_file_verdict_eq]
    refine if_neg ?_
    simp +decide [audit_file, fileCC5, DEFAULT_CONFIG, compute_ccr]
    norm_num
  · rw [audit_file_verdict_eq]
    refine if_neg ?_
    simp +decide [audit_file, fileCC9, DEFAULT_CONFIG, compute_ccr]
    norm_num
  · rw [audit_file_verdict_eq]
    refine if_neg ?_
    simp +decide [audit_file, fileCC11, DEFAULT_CONFIG, compute_ccr]
    norm_num
  · have hmc : (aggregate demoReports DEFAULT_CONFIG).max_cc = 11 := by decide
    rw [aggregate_verdict_eq]
    refine if_neg fun hz => ?_
    rw [hmc] at hz
    exact absurd hz.1 (by decide)

/-- C7. Aggregating an empty list of reports yields file count 0,
max/mean CC 0, max ADF 0, no polluted files, mean/max churn 0, global TL
clear and project verdict PASS, for every configuration whose thresholds
have the default thresholds' signs. -/
theorem aggregate_empty (config : Config)
    (h1 : 0 < config.project_cc_threshold) (h2 : (0 : ℚ) < config.adf_threshold)
    (h3 : (0 : ℚ) ≤ config.ccr_threshold) :
    aggregate [] config =
      { total_files := 0, max_cc := 0, mean_cc := 0, max_adf := 0,
        polluted_files := [], mean_ccr := 0, max_ccr := 0,
        global_tl := "LOW", tl_instances := [], verdict := PASSED_VERDICT } := by
  simp [aggregate, listMean, maxD, h1, h2, h3]

/-- Witness for C7 at the default configuration. -/
theorem aggregate_empty_witness :
    aggregate [] DEFAULT_CONFIG =
      { total_files := 0, max_cc := 0, mean_cc := 0, max_adf := 0,
        polluted_files := [], mean_ccr := 0, max_ccr := 0,
        global_tl := "LOW", tl_instances := [], verdict := PASSED_VERDICT } :=
  aggregate_empty DEFAULT_CONFIG (by decide)
    (by norm_num [DEFAULT_CONFIG]) (by norm_num [DEFAULT_CONFIG])

/-- C10. Whenever the project CC ceiling is at most the per-file CC
ceiling (as with the defaults, 10 ≤ 20), a failing file report forces
the aggregated project verdict to FAIL: the project policy dominates the
per-file policy. -/
theorem project_dominates_file (config : Config)
    (inputs : List (FsPath × FileData))
    (hle : config.project_cc_threshold ≤ config.cc_threshold)
    (r : FileReport)
    (hr : r ∈ inputs.map fun pd => audit_file pd.1 pd.2 config)
    (hfail : r.verdict = FAILED_VERDICT) :
    (aggregate (inputs.map fun pd => audit_file pd.1 pd.2 config) config).verdict
      = FAILED_VERDICT := by
  rcases List.mem_map.mp hr with ⟨pd, hpd, hrdef⟩
  have hbreach : r.max_cc > config.cc_threshold ∨ r.adf > config.adf_threshold ∨
      r.ccr > config.ccr_threshold := by
    by_contra hno
    rw [← hrdef] at hno
    rw [← hrdef, audit_file_verdict_eq, if_neg hno] at hfail
    exact absurd hfail (by decide)
  have hcc : r.max_cc ≤
      (aggregate (inputs.map fun pd => audit_file pd.1 pd.2 config) config).max_cc :=
    le_maxD_of_mem 0 (List.mem_map_of_mem (fun q => q.max_cc) hr)
  have hadf : r.adf ≤
      (aggregate (inputs.map fun pd => audit_file pd.1 pd.2 config) config).max_adf :=
    le_maxD_of_mem 0 (List.mem_map_of_mem (fun q => q.adf) hr)
  have hccr : r.ccr ≤
      (aggregate (inputs.map fun pd => audit_file pd.1 pd.2 config) config).max_ccr :=
    le_maxD_of_mem 0 (List.mem_map_of_mem (fun q => q.ccr) hr)
  rw [aggregate_verdict_eq]
  refine if_neg fun hz => ?_
  rcases hbreach with hb | hb | hb
  · have : r.max_cc < r.max_cc := by
      calc r.max_cc ≤ _ := hcc
        _ < config.project_cc_threshold := hz.1
        _ ≤ config.cc_threshold := hle
        _ < r.max_cc := hb
    exact absurd this (lt_irrefl _)
  · have h1 : r.adf < config.adf_threshold := lt_of_le_of_lt hadf hz.2.1
    exact absurd hb (not_lt.mpr (le_of_lt h1))
  · have h1 : r.ccr ≤ config.ccr_threshold := le_trans hccr hz.2.2.2
    exact absurd hb (not_lt.mpr h1)

/-- Witness for C10: the default configuration and a single failing
CC-21 file force a failing project verdict. -/
theorem project_dominates_file_witness :
    (aggregate ([(pA, fileCC21)].map fun pd => audit_file pd.1 pd.2 DEFAULT_CONFIG)
      DEFAULT_CONFIG).verdict = FAILED_VERDICT :=
  project_dominates_file DEFAULT_CONFIG [(pA, fileCC21)] (by decide)
    (audit_file pA fileCC21 DEFAULT_CONFIG) (List.Mem.head _) (by decide)

/-- A file with zero lines (empty content). -/
def fileEmpty : FileData :=
  { lines := [], blocks := [], mi_score := 100,
    h_difficulty := 0, h_effort := 0, churn := none }

/-- A one-line file whose only line contains the illegal pattern
`print(`. -/
def fileAllDrift : FileData :=
  { lines := ["print(1)"], blocks := [], mi_score := 100,
    h_difficulty := 0, h_effort := 0, churn := none }

/-- A clean file whose git history query returned 3 change lines. -/
def fileChurn3 : FileData :=
  { lines := ["x = 1"], blocks := [], mi_score := 100,
    h_difficulty := 0, h_effort := 0, churn := some 3 }

/-- C5. ADF equals (number of lines containing at least one configured
illegal substring, each line counted once) divided by (total lines),
0 for a zero-line file; it lies in [0, 1], and for a file with lines it
equals 1 exactly when every line matches some pattern. -/
theorem adf_density (path : FsPath) (f : FileData) (config : Config) :
    ((audit_file path f config).adf =
      if f.lines.length = 0 then 0
      else
        (f.lines.countP fun line =>
          config.illegal_patterns.any fun p => strContains line p) /
          (f.lines.length : ℚ)) ∧
    (0 ≤ (audit_file path f config).adf ∧ (audit_file path f config).adf ≤ 1) ∧
    (f.lines.length = 0 → (audit_file path f config).adf = 0) ∧
    (f.lines.length ≠ 0 →
      ((audit_file path f config).adf = 1 ↔
        ∀ line ∈ f.lines,
          ∃ p ∈ config.illegal_patterns, strContains line p = true)) := by
  have hdef : (audit_file path f config).adf =
      if f.lines.length = 0 then 0
      else
        (f.lines.countP fun line =>
          config.illegal_patterns.any fun p => strContains line p) /
          (f.lines.length : ℚ) := rfl
  refine ⟨hdef, ?_, ?_, ?_⟩
  · rw [hdef]
    split
    · exact ⟨le_refl 0, by norm_num⟩
    · next hne =>
        have hpos : (0 : ℚ) < (f.lines.length : ℚ) :=
          Nat.cast_pos.mpr (Nat.pos_of_ne_zero hne)
        constructor
        · exact div_nonneg (Nat.cast_nonneg _) (le_of_lt hpos)
        · exact (div_le_one hpos).mpr (Nat.cast_le.mpr (List.countP_le_length _))
  · intro h0
    rw [hdef, if_pos h0]
  · intro hne
    rw [hdef, if_neg hne]
    have hlen0 : ((f.lines.length : ℚ)) ≠ 0 :=
      Nat.cast_ne_zero.mpr hne
    rw [div_eq_one_iff_eq hlen0, Nat.cast_inj, List.countP_eq_length]
    constructor
    · intro hall line hline
      rcases List.any_eq_true.mp (hall line hline) with ⟨p, hp, hc⟩
      exact ⟨p, hp, hc⟩
    · intro hall line hline
      rcases hall line hline with ⟨p, hp, hc⟩
      exact List.any_eq_true.mpr ⟨p, hp, hc⟩

/-- Witness for C5: the empty file has ADF 0 and a file whose every line
contains `print(` has ADF 1, both under the default configuration. -/
theorem adf_density_witness :
    (audit_file pA fileEmpty DEFAULT_CONFIG).adf = 0 ∧
    (audit_file pA fileAllDrift DEFAULT_CONFIG).adf = 1 :=
  ⟨(adf_density pA fileEmpty DEFAULT_CONFIG).2.2.1 rfl,
   ((adf_density pA fileAllDrift DEFAULT_CONFIG).2.2.2 (by decide)).mpr
     (by decide)⟩

/-- C6. The churn score is `min(change_count / 10, 1)` (0 changes → 0,
10 changes → 1, 25 changes → 1, saturating), and exactly 0 whenever the
history query failed. -/
theorem ccr_normalization (n : Nat) (path : FsPath) (f : FileData)
    (config : Config) :
    (f.churn = some n →
      (audit_file path f config).ccr = min ((n : ℚ) / 10) 1) ∧
    (f.churn = none → (audit_file path f config).ccr = 0) ∧
    compute_ccr (some 0) = 0 ∧ compute_ccr (some 10) = 1 ∧
    compute_ccr (some 25) = 1 := by
  refine ⟨?_, ?_, ?_, ?_, ?_⟩
  · intro h
    show compute_ccr f.churn = _
    rw [h]
    rfl
  · intro h
    show compute_ccr f.churn = _
    rw [h]
    rfl
  · simp [compute_ccr]
  · norm_num [compute_ccr]
  · norm_num [compute_ccr]

/-- Witness for C6 at churn count 3 and at a failed history query. -/
theorem ccr_normalization_witness :
    (audit_file pA fileChurn3 DEFAULT_CONFIG).ccr = min ((3 : ℚ) / 10) 1 ∧
    (audit_file pA fileEmpty DEFAULT_CONFIG).ccr = 0 :=
  ⟨(ccr_normalization 3 pA fileChurn3 DEFAULT_CONFIG).1 rfl,
   (ccr_normalization 0 pA fileEmpty DEFAULT_CONFIG).2.1 rfl⟩

/-- A straight-line file with no function at all: radon's structural
scan finds no block, so `cc_visit` returns the empty list. -/
def fileStraight : FileData :=
  { lines := ["x = 1"], blocks := [], mi_score := 100,
    h_difficulty := 0, h_effort := 0, churn := none }

/-- A file with two functions, each of zero decision points (CC 1). -/
def fileTwoSimple : FileData :=
  { lines := ["def f():", "    return 1", "def g():", "    return 2"],
    blocks := [1, 1], mi_score := 100,
    h_difficulty := 0, h_effort := 0, churn := none }

/-- C3 counterexample: for a straight-line file in which the structural
scan finds no function boundary (zero decision points everywhere), the
reported max CC is 0 — the `max(..., default=0)` of line 148 — and not
the claimed 1 of an implicit whole-file function. -/
theorem no_function_cc_counterexample :
    (audit_file pA fileStraight DEFAULT_CONFIG).max_cc = 0 ∧
    ¬ (audit_file pA fileStraight DEFAULT_CONFIG).max_cc = 1 := by
  exact ⟨rfl, by decide⟩

/-- The fold of `max` over elements all below the seed is the seed. -/
theorem foldl_max_of_le {α : Type} [LinearOrder α] :
    ∀ (l : List α) (b : α), (∀ x ∈ l, x ≤ b) → l.foldl max b = b
  | [], _, _ => rfl
  | c :: cs, b, h => by
    have hc : c ≤ b := h c (List.mem_cons_self c cs)
    rw [List.foldl_cons, max_eq_left hc]
    exact foldl_max_of_le cs b fun x hx => h x (List.mem_cons_of_mem c hx)

/-- C3 amended: when the structural scan finds no function boundary the
reported max CC is 0 (the empty-`max` default); when it finds at least
one function and every function has zero decision points (per-function
CC 1), the reported max CC is 1. -/
theorem max_cc_of_blocks (path : FsPath) (f : FileData) (config : Config) :
    (f.blocks = [] → (audit_file path f config).max_cc = 0) ∧
    (f.blocks ≠ [] → (∀ b ∈ f.blocks, b = 1) →
      (audit_file path f config).max_cc = 1) := by
  constructor
  · intro h
    show maxD 0 f.blocks = 0
    rw [h]
    rfl
  · intro hne hall
    show maxD 0 f.blocks = 1
    cases hb : f.blocks with
    | nil => exact absurd hb hne
    | cons b bs =>
      show bs.foldl max b = 1
      have hb1 : b = 1 := hall b (hb ▸ List.mem_cons_self b bs)
      rw [hb1]
      exact foldl_max_of_le bs 1 fun x hx =>
        le_of_eq (hall x (hb ▸ List.mem_cons_of_mem b hx))

/-- Witness for the amended C3: a file with two CC-1 functions reports
max CC 1. -/
theorem max_cc_of_blocks_witness :
    (audit_file pA fileTwoSimple DEFAULT_CONFIG).max_cc = 1 :=
  (max_cc_of_blocks pA fileTwoSimple DEFAULT_CONFIG).2 (by decide) (by decide)

/-- The exception text standing for the `OSError`/`UnicodeDecodeError`
that `path.read_text` raises on an unreadable or undecodable file. -/
def read_error_msg : String := "read failure"

/-- `audit_file` as its caller observes it: the `path.read_text` call at
the top either decodes the file (`some`) or raises (`none`), and
`audit_file` has no handler, so the exception propagates. -/
def audit_file_exc (path : FsPath) (d : Option FileData) (config : Config) :
    Except String FileReport :=
  match d with
  | none => Except.error read_error_msg
  | some f => Except.ok (audit_file path f config)

/-- The directory-mode audit loop of `main`
(`[audit_file(f, config) for f in files]`, lines 425-438): there is no
per-file exception handling, so the first raising file aborts the whole
comprehension and no report list is produced. -/
def run_dir_audits (files : List (FsPath × Option FileData))
    (config : Config) : Except String (List FileReport) :=
  match files with
  | [] => Except.ok []
  | pd :: rest =>
    match audit_file_exc pd.1 pd.2 config with
    | Except.error e => Except.error e
    | Except.ok r =>
      match run_dir_audits rest config with
      | Except.error e => Except.error e
      | Except.ok rs => Except.ok (r :: rs)

/-- C4 counterexample: with a two-file tree whose first file is
unreadable and whose second is fine, the scan yields no error record and
no report for the second file — it aborts with the propagated read
exception. -/
theorem read_error_aborts_counterexample :
    run_dir_audits [(pA, none), (pB5, some fileCC5)] DEFAULT_CONFIG =
      Except.error read_error_msg := rfl

/-- C4 amended: a per-file read or decode failure anywhere in the tree
aborts the whole directory scan with the propagated exception; the
engine produces neither an error record nor reports for the remaining
files. -/
theorem read_error_aborts (files : List (FsPath × Option FileData))
    (config : Config) (p : FsPath)
    (hmem : (p, (none : Option FileData)) ∈ files) :
    run_dir_audits files config = Except.error read_error_msg := by
  induction files with
  | nil => cases hmem
  | cons hd tl ih =>
    obtain ⟨hp, hopt⟩ := hd
    cases hopt with
    | none => simp [run_dir_audits, audit_file_exc]
    | some f =>
      rcases List.mem_cons.mp hmem with h1 | h2
      · exact absurd (congrArg Prod.snd h1) (by simp)
      · simp [run_dir_audits, audit_file_exc, ih h2]

/-- Witness for the amended C4 at a one-file tree whose file is
unreadable. -/
theorem read_error_aborts_witness :
    run_dir_audits [(pA, none)] DEFAULT_CONFIG =
      Except.error read_error_msg :=
  read_error_aborts [(pA, none)] DEFAULT_CONFIG pA (List.Mem.head _)

/-- Python string `<`: strict lexicographic comparison of the character
sequences by code point, a strict prefix sorting first. -/
def charListLt : List Char → List Char → Bool
  | [], [] => false
  | [], _ :: _ => true
  | _ :: _, [] => false
  | a :: as, b :: bs =>
    if a < b then true
    else if b < a then false
    else charListLt as bs

/-- Python `a < b` on strings, over the decoded character lists. -/
def strLt (a b : String) : Bool :=
  charListLt a.toList b.toList

/-- The cons case of `charListLt`, unfolded into its order meaning. -/
theorem charListLt_cons_iff (x y : Char) (xs ys : List Char) :
    charListLt (x :: xs) (y :: ys) = true ↔
      x < y ∨ (x = y ∧ charListLt xs ys = true) := by
  show (if x < y then true else if y < x then false else charListLt xs ys)
      = true ↔ _
  rcases lt_trichotomy x y with h | h | h
  · rw [if_pos h]
    exact iff_of_true rfl (Or.inl h)
  · subst h
    rw [if_neg (lt_irrefl x), if_neg (lt_irrefl x)]
    constructor
    · intro hr
      exact Or.inr ⟨rfl, hr⟩
    · rintro (h1 | ⟨h1, h2⟩)
      · exact absurd h1 (lt_irrefl x)
      · exact h2
  · rw [if_neg (asymm h), if_pos h]
    constructor
    · intro hf
      exact absurd hf (by decide)
    · rintro (h1 | ⟨h1, h2⟩)
      · exact absurd h1 (asymm h)
      · subst h1
        exact absurd h (lt_irrefl x)

/-- `charListLt` is irreflexive. -/
theorem charListLt_irrefl : ∀ (l : List Char), charListLt l l = false
  | [] => rfl
  | a :: as => by
    show (if a < a then true else if a < a then false else charListLt as as)
        = false
    rw [if_neg (lt_irrefl a), if_neg (lt_irrefl a)]
    exact charListLt_irrefl as

/-- `charListLt` is asymmetric. -/
theorem charListLt_asymm : ∀ (a b : List Char),
    charListLt a b = true → charListLt b a = false
  | [], [], h => by simp [charListLt] at h
  | [], _ :: _, _ => rfl
  | _ :: _, [], h => by simp [charListLt] at h
  | x :: xs, y :: ys, h => by
    rw [Bool.eq_false_iff]
    intro hcontra
    rw [charListLt_cons_iff] at h hcontra
    rcases h with h1 | ⟨h1, h1r⟩
    · rcases hcontra with h2 | ⟨h2, h2r⟩
      · exact absurd h2 (asymm h1)
      · subst h2
        exact absurd h1 (lt_irrefl y)
    · rcases hcontra with h2 | ⟨h2, h2r⟩
      · subst h1
        exact absurd h2 (lt_irrefl x)
      · rw [charListLt_asymm xs ys h1r] at h2r
        exact absurd h2r (by decide)

/-- `charListLt` is transitive. -/
theorem charListLt_trans : ∀ (a b c : List Char),
    charListLt a b = true → charListLt b c = true → charListLt a c = true
  | [], [], _, hab, _ => by simp [charListLt] at hab
  | [], _ :: _, [], _, hbc => by simp [charListLt] at hbc
  | [], _ :: _, _ :: _, _, _ => rfl
  | _ :: _, [], _, hab, _ => by simp [charListLt] at hab
  | _ :: _, _ :: _, [], _, hbc => by simp [charListLt] at hbc
  | x :: xs, y :: ys, z :: zs, hab, hbc => by
    rw [charListLt_cons_iff] at hab hbc ⊢
    rcases hab with h1 | ⟨h1, h1r⟩
    · rcases hbc with h2 | ⟨h2, h2r⟩
      · exact Or.inl (lt_trans h1 h2)
      · exact Or.inl (lt_of_lt_of_le h1 (le_of_eq h2))
    · rcases hbc with h2 | ⟨h2, h2r⟩
      · exact Or.inl (lt_of_le_of_lt (le_of_eq h1) h2)
      · exact Or.inr ⟨h1.trans h2, charListLt_trans xs ys zs h1r h2r⟩

/-- Some order case always holds for `charListLt`: `<`, `>` or `=`. -/
theorem charListLt_trichotomy : ∀ (a b : List Char),
    charListLt a b = true ∨ charListLt b a = true ∨ a = b
  | [], [] => Or.inr (Or.inr rfl)
  | [], _ :: _ => Or.inl rfl
  | _ :: _, [] => Or.inr (Or.inl rfl)
  | x :: xs, y :: ys => by
    rcases lt_trichotomy x y with h | h | h
    · exact Or.inl ((charListLt_cons_iff x y xs ys).mpr (Or.inl h))
    · subst h
      rcases charListLt_trichotomy xs ys with h1 | h1 | h1
      · exact Or.inl
          ((charListLt_cons_iff x x xs ys).mpr (Or.inr ⟨rfl, h1⟩))
      · exact Or.inr (Or.inl
          ((charListLt_cons_iff x x ys xs).mpr (Or.inr ⟨rfl, h1⟩)))
      · exact Or.inr (Or.inr (by rw [h1]))
    · exact Or.inr (Or.inl ((charListLt_cons_iff y x ys xs).mpr (Or.inl h)))

/-- Some order case always holds for `strLt`: `<`, `>` or `=`. -/
theorem strLt_trichotomy (a b : String) :
    strLt a b = true ∨ strLt b a = true ∨ a = b := by
  rcases charListLt_trichotomy a.toList b.toList with h | h | h
  · exact Or.inl h
  · exact Or.inr (Or.inl h)
  · exact Or.inr (Or.inr (String.toList_inj.mp h))

/-- `strLt` is irreflexive. -/
theorem strLt_irrefl (a : String) : strLt a a = false :=
  charListLt_irrefl a.toList

/-- `strLt` is asymmetric. -/
theorem strLt_asymm {a b : String} (h : strLt a b = true) :
    strLt b a = false :=
  charListLt_asymm a.toList b.toList h

/-- `strLt` is transitive. -/
theorem strLt_trans {a b c : String} (h1 : strLt a b = true)
    (h2 : strLt b c = true) : strLt a c = true :=
  charListLt_trans a.toList b.toList c.toList h1 h2

/-- Lexicographic `≤` on sequences of parts, componentwise by `strLt`:
Python tuple comparison, where a strict prefix sorts first and the
first differing component decides. -/
def partsLe : List String → List String → Bool
  | [], _ => true
  | _ :: _, [] => false
  | x :: xs, y :: ys =>
    if strLt x y then true
    else if strLt y x then false
    else partsLe xs ys

/-- `sorted()` on `pathlib` paths: `PurePath` comparison (its `__lt__`)
orders paths by the tuple of parts, each part by string code-point
order — not by the joined path string (`proj/a/b.py` sorts before
`proj/a.b.py` although `/` follows `.` in code-point order). -/
def pathLe (p q : FsPath) : Bool :=
  partsLe p.parts q.parts

/-- The cons case of `partsLe`, unfolded into its order meaning. -/
theorem partsLe_cons_iff (x y : String) (xs ys : List String) :
    partsLe (x :: xs) (y :: ys) = true ↔
      strLt x y = true ∨ (x = y ∧ partsLe xs ys = true) := by
  show (if strLt x y then true else if strLt y x then false
      else partsLe xs ys) = true ↔ _
  rcases strLt_trichotomy x y with h | h | h
  · rw [if_pos h]
    exact iff_of_true rfl (Or.inl h)
  · have hxy : strLt x y = false := strLt_asymm h
    rw [if_neg (by simp [hxy]), if_pos h]
    constructor
    · intro hf
      exact absurd hf (by decide)
    · rintro (h1 | ⟨h1, h2⟩)
      · rw [hxy] at h1
        exact absurd h1 (by decide)
      · subst h1
        rw [strLt_irrefl x] at h
        exact absurd h (by decide)
  · subst h
    rw [if_neg (by simp [strLt_irrefl x]), if_neg (by simp [strLt_irrefl x])]
    constructor
    · intro hr
      exact Or.inr ⟨rfl, hr⟩
    · rintro (h1 | ⟨h1, h2⟩)
      · rw [strLt_irrefl x] at h1
        exact absurd h1 (by decide)
      · exact h2

/-- `partsLe` is total. -/
theorem partsLe_total : ∀ (a b : List String),
    (partsLe a b || partsLe b a) = true
  | [], _ => by simp [partsLe]
  | _ :: _, [] => by simp [partsLe]
  | x :: xs, y :: ys => by
    rcases strLt_trichotomy x y with h | h | h
    · rw [(partsLe_cons_iff x y xs ys).mpr (Or.inl h), Bool.true_or]
    · rw [(partsLe_cons_iff y x ys xs).mpr (Or.inl h), Bool.or_true]
    · subst h
      rcases Bool.or_eq_true_iff.mp (partsLe_total xs ys) with h1 | h1
      · rw [(partsLe_cons_iff x x xs ys).mpr (Or.inr ⟨rfl, h1⟩),
          Bool.true_or]
      · rw [(partsLe_cons_iff x x ys xs).mpr (Or.inr ⟨rfl, h1⟩),
          Bool.or_true]

/-- `partsLe` is transitive. -/
theorem partsLe_trans : ∀ (a b c : List String),
    partsLe a b = true → partsLe b c = true → partsLe a c = true
  | [], _, _, _, _ => by simp [partsLe]
  | _ :: _, [], _, hab, _ => by simp [partsLe] at hab
  | _ :: _, _ :: _, [], _, hbc => by simp [partsLe] at hbc
  | x :: xs, y :: ys, z :: zs, hab, hbc => by
    rw [partsLe_cons_iff] at hab hbc ⊢
    rcases hab with h1 | ⟨h1, h1r⟩
    · rcases hbc with h2 | ⟨h2, h2r⟩
      · exact Or.inl (strLt_trans h1 h2)
      · refine Or.inl ?_
        rw [← h2]
        exact h1
    · rcases hbc with h2 | ⟨h2, h2r⟩
      · refine Or.inl ?_
        rw [h1]
        exact h2
      · exact Or.inr ⟨h1.trans h2, partsLe_trans xs ys zs h1r h2r⟩

/-- `sorted(directory.rglob("*.py"))`: the traversal may yield the paths
in any order; `sorted` puts them in ascending `pathLe` order. -/
def sortPaths (paths : List FsPath) : List FsPath :=
  paths.mergeSort pathLe

/-- `collect_files`: sort the `rglob("*.py")` results, then drop every
path with a part in `skip_dirs` and every `__init__.py`, keeping the
sorted order. -/
def collect_files (paths : List FsPath) (config : Config) : List FsPath :=
  (sortPaths paths).filter fun p =>
    !(p.parts.any fun part => config.skip_dirs.contains part) &&
      !(p.name == "__init__.py")

/-- One entry of the structured report's `files` array (`build_json`).
The source also rounds the float-valued fields for stable display
(`round(x, 2)` / `round(x, 4)`); that decimal rounding of binary floats
is not modelled — the claims concern the identity and order of the
entries, and `path` is `str(r.path)`. -/
structure JsonFileEntry where
  path : String
  max_cc : Nat
  mi_score : ℚ
  h_difficulty : ℚ
  h_effort : ℚ
  ccr : ℚ
  adf : ℚ
  tl : String
  tl_instances : List String
  verdict : String
deriving DecidableEq

/-- The `files` array of `build_json`: one entry per file report, in the
order of the report list. -/
def build_json_files (file_reports : List FileReport) : List JsonFileEntry :=
  file_reports.map fun r =>
    { path := r.path.str
      max_cc := r.max_cc
      mi_score := r.mi_score
      h_difficulty := r.h_difficulty
      h_effort := r.h_effort
      ccr := r.ccr
      adf := r.adf
      tl := r.tl
      tl_instances := r.tl_instances
      verdict := r.verdict }

/-- The structured report object of `build_json`: format version,
target path, the project object for directory targets, and the `files`
array. -/
structure JsonReport where
  version : String
  target : String
  project : Option ProjectReport
  files : List JsonFileEntry
deriving DecidableEq

/-- `build_json`. -/
def build_json (target : FsPath) (file_reports : List FileReport)
    (project : Option ProjectReport) : JsonReport :=
  { version := "2.2"
    target := target.str
    project := project
    files := build_json_files file_reports }

/-- C8. For every directory scan, the per-file rows of the
human-readable table (the `file_reports` list order) and the entries of
the structured report's `files` array carry the collected paths in
ascending lexicographic order of the file path — `pathlib`'s path
order, the tuple of parts compared componentwise — whatever order the
`rglob` traversal produced. -/
theorem report_listing_sorted (paths : List FsPath) (config : Config)
    (fs : FsPath → FileData) (target : FsPath)
    (project : Option ProjectReport) :
    (((collect_files paths config).map fun p =>
        audit_file p (fs p) config).map fun r => r.path) =
      collect_files paths config ∧
    ((build_json target ((collect_files paths config).map fun p =>
        audit_file p (fs p) config) project).files.map fun e => e.path) =
      (collect_files paths config).map FsPath.str ∧
    List.Pairwise (fun p q : FsPath => pathLe p q = true)
      (collect_files paths config) := by
  have hsorted : (sortPaths paths).Pairwise fun p q => pathLe p q = true :=
    @List.sorted_mergeSort FsPath pathLe
      (fun a b c hab hbc => partsLe_trans a.parts b.parts c.parts hab hbc)
      (fun a b => partsLe_total a.parts b.parts)
      paths
  have hcf : List.Pairwise (fun p q : FsPath => pathLe p q = true)
      (collect_files paths config) :=
    List.Pairwise.sublist (List.filter_sublist _) hsorted
  have hmap1 : (((collect_files paths config).map fun p =>
      audit_file p (fs p) config).map fun r => r.path) =
      collect_files paths config := by
    rw [List.map_map]
    exact List.map_id _
  have hmap2 : ((build_json target ((collect_files paths config).map fun p =>
      audit_file p (fs p) config) project).files.map fun e => e.path) =
      (collect_files paths config).map FsPath.str := by
    show ((build_json_files _).map fun e => e.path) = _
    rw [build_json_files, List.map_map, List.map_map]
    rfl
  exact ⟨hmap1, hmap2, hcf⟩

/-- The targets `main` distinguishes after `parse_args`: a readable
single file, a directory together with the contents of its (readable)
`.py` files, or a path that is neither file nor directory. -/
inductive Target where
  | file (p : FsPath) (d : FileData)
  | dir (paths : List FsPath) (fs : FsPath → FileData)
  | invalid

/-- `"FAILED" in verdict`, the substring check `main` applies to a
verdict string. -/
def verdict_failed (verdict : String) : Bool :=
  strContains verdict "FAILED"

/-- The overall verdict `main` reaches: the file verdict in single-file
mode, the project verdict in directory mode with at least one collected
file, and `none` when no verdict is reached (invalid target, or a
directory with no collected `.py` files, which `main` treats as a fatal
error before aggregation). -/
def overall_verdict (t : Target) (config : Config) : Option String :=
  match t with
  | .file p d => some (audit_file p d config).verdict
  | .dir paths fs =>
    let files := collect_files paths config
    if files.isEmpty then none
    else
      some (aggregate (files.map fun p => audit_file p (fs p) config)
        config).verdict
  | .invalid => none

/-- The process exit status of `main` (`sys.exit(1)` on a FAILED
verdict, on an empty directory and on an invalid target; normal return,
exit 0, otherwise). Unreadable files abort with a traceback instead and
are covered by `run_dir_audits`. -/
def main_exit (t : Target) (config : Config) : Nat :=
  match t with
  | .file p d =>
    if verdict_failed (audit_file p d config).verdict then 1 else 0
  | .dir paths fs =>
    let files := collect_files paths config
    if files.isEmpty then 1
    else
      if verdict_failed
          (aggregate (files.map fun p => audit_file p (fs p) config)
            config).verdict then 1
      else 0
  | .invalid => 1

/-- The file verdict is always one of the two verdict strings. -/
theorem audit_file_verdict_cases (path : FsPath) (f : FileData)
    (config : Config) :
    (audit_file path f config).verdict = FAILED_VERDICT ∨
      (audit_file path f config).verdict = PASSED_VERDICT := by
  rw [audit_file_verdict_eq]
  split
  · exact Or.inl rfl
  · exact Or.inr rfl

/-- The project verdict is always one of the two verdict strings. -/
theorem aggregate_verdict_cases (reports : List FileReport)
    (config : Config) :
    (aggregate reports config).verdict = FAILED_VERDICT ∨
      (aggregate reports config).verdict = PASSED_VERDICT := by
  rw [aggregate_verdict_eq]
  split
  · exact Or.inr rfl
  · exact Or.inl rfl

/-- The exit bit computed from a verdict string: nonzero iff FAILED. -/
theorem exit_bit_spec (s : String)
    (hs : s = FAILED_VERDICT ∨ s = PASSED_VERDICT) :
    ((if verdict_failed s then (1 : Nat) else 0) ≠ 0 ↔ s = FAILED_VERDICT) ∧
    (s = PASSED_VERDICT → (if verdict_failed s then (1 : Nat) else 0) = 0) := by
  rcases hs with h | h <;> subst h
  · have hb : verdict_failed FAILED_VERDICT = true := by decide
    rw [hb]
    exact ⟨iff_of_true (by decide) rfl, fun hpf => absurd hpf (by decide)⟩
  · have hb : verdict_failed PASSED_VERDICT = false := by decide
    rw [hb]
    exact ⟨iff_of_false (by decide) (by decide), fun _ => rfl⟩

/-- C9. For every invocation that reaches a verdict (single-file mode,
or directory mode with at least one collected file), the process exit
status is nonzero iff that overall verdict is FAIL, and zero whenever it
is PASS. -/
theorem exit_status_gate (t : Target) (config : Config) (v : String)
    (hv : overall_verdict t config = some v) :
    (main_exit t config ≠ 0 ↔ v = FAILED_VERDICT) ∧
    (v = PASSED_VERDICT → main_exit t config = 0) := by
  cases t with
  | file p d =>
    have hveq : v = (audit_file p d config).verdict :=
      (Option.some.inj hv).symm
    subst hveq
    exact exit_bit_spec _ (audit_file_verdict_cases p d config)
  | dir paths fs =>
    dsimp only [overall_verdict] at hv
    dsimp only [main_exit]
    split at hv
    · exact absurd hv (by simp)
    · next hne =>
      have hveq : v = (aggregate ((collect_files paths config).map fun p =>
          audit_file p (fs p) config) config).verdict :=
        (Option.some.inj hv).symm
      subst hveq
      rw [if_neg hne]
      exact exit_bit_spec _ (aggregate_verdict_cases _ config)
  | invalid => exact absurd hv (by simp [overall_verdict])

/-- Witness for C9: a clean straight-line single file reaches verdict
PASS and the process exits 0. -/
theorem exit_status_gate_witness :
    overall_verdict (Target.file pA fileStraight) DEFAULT_CONFIG =
      some PASSED_VERDICT ∧
    main_exit (Target.file pA fileStraight) DEFAULT_CONFIG = 0 := by
  have hp : (audit_file pA fileStraight DEFAULT_CONFIG).verdict =
      PASSED_VERDICT := by
    rw [audit_file_verdict_eq]
    refine if_neg ?_
    simp +decide [audit_file, fileStraight, DEFAULT_CONFIG, compute_ccr]
    norm_num
  have hv : overall_verdict (Target.file pA fileStraight) DEFAULT_CONFIG =
      some PASSED_VERDICT := by
    show some (audit_file pA fileStraight DEFAULT_CONFIG).verdict = _
    rw [hp]
  exact ⟨hv,
    (exit_status_gate (Target.file pA fileStraight) DEFAULT_CONFIG
      PASSED_VERDICT hv).2 rfl⟩
